import Mathlib

/-!
Shallow embedding of `src/app4.py` (statement-analyser).

The program detects a bank-statement format, parses the statement's text
lines into raw transactions with a continuation-line state machine, then
normalizes (amount parsing, date parsing, exclusion filtering, description
trimming) and categorizes them by keyword lookup.

Strings are modelled as `List Char` (ASCII model of Python's `str`).
Python regular-expression matching for the three transaction patterns is
modelled by a small backtracking matcher over character classes that
follows Python's alternative ordering (greedy high-to-low, lazy
low-to-high), anchored at the start as `re.match` is; the trailing `$` of
each pattern is modelled as end-of-input, since extracted lines carry no
trailing newline.
-/

namespace StatementAnalyser

/-- ASCII model of the regex class `\d`. -/
def isDigitC (c : Char) : Bool := c.isDigit

/-- ASCII model of the regex class `\w` (letters, digits, underscore). -/
def isWordC (c : Char) : Bool := c.isAlphanum || c == '_'

/-- ASCII model of the regex class `\s` (space and the control chars 9-13). -/
def isSpaceC (c : Char) : Bool := c == ' ' || (9 ≤ c.toNat && c.toNat ≤ 13)

/-- The class `[\d,]` used by the amount fields of every pattern. -/
def isAmountC (c : Char) : Bool := c.isDigit || c == ','

/-- The class `.`: any character except a newline. -/
def isAnyC (c : Char) : Bool := !(c == '\n')

/-- `containsSub hay needle` is Python's `needle in hay` on strings. -/
def containsSub (hay needle : List Char) : Bool :=
  needle.isPrefixOf hay ||
    match hay with
    | [] => false
    | _ :: t => containsSub t needle

/-- Case-insensitive substring test (ASCII model of `flags=IGNORECASE`). -/
def containsSubCI (hay needle : List Char) : Bool :=
  containsSub (hay.map Char.toLower) (needle.map Char.toLower)

/-- Python's `str.strip()`: drop whitespace from both ends. -/
def stripStr (s : List Char) : List Char :=
  ((s.dropWhile isSpaceC).reverse.dropWhile isSpaceC).reverse

/-- Length of the maximal run of characters satisfying `p` at the head. -/
def countRun (p : Char → Bool) : List Char → Nat
  | [] => 0
  | c :: rest => if p c then countRun p rest + 1 else 0

/-- Regular expressions as they occur in `app4.py`: every quantifier is
applied to a single character class, so backtracking reduces to choosing
how many characters of the head run the quantifier consumes. -/
inductive RE where
  | cls (p : Char → Bool)
  | seq (a b : RE)
  | grp (n : Nat) (r : RE)
  | rep (p : Char → Bool) (lo : Nat) (hi : Option Nat) (lazyQ : Bool)

/-- Captured groups: group index paired with the captured characters. -/
abbrev Caps := List (Nat × List Char)

/-- Try each alternative in order, returning the first success — the
backtracking order of Python's regex engine. -/
def tryEach {α : Type} (f : Nat → Option α) : List Nat → Option α
  | [] => none
  | n :: ns =>
    match f n with
    | some r => some r
    | none => tryEach f ns

/-- Candidate consumption counts for a class quantifier: `lo..m` for a
lazy quantifier, `m..lo` (longest first) for a greedy one. -/
def repCandidates (lo m : Nat) (lazyQ : Bool) : List Nat :=
  let asc := (List.range (m + 1 - lo)).map (fun i => lo + i)
  if lazyQ then asc else asc.reverse

/-- Backtracking matcher in continuation style: `reMatch r s caps k`
matches `r` against a prefix of `s`, calling `k` on the remainder, and
returns the first success in Python's backtracking order. -/
def reMatch : RE → List Char → Caps → (List Char → Caps → Option Caps) → Option Caps
  | .cls p, s, caps, k =>
    match s with
    | [] => none
    | c :: rest => if p c then k rest caps else none
  | .seq a b, s, caps, k =>
    reMatch a s caps (fun rest caps1 => reMatch b rest caps1 k)
  | .grp n r, s, caps, k =>
    reMatch r s caps (fun rest caps1 =>
      k rest ((n, s.take (s.length - rest.length)) :: caps1))
  | .rep p lo hi lazyQ, s, caps, k =>
    let run := countRun p s
    let m := match hi with | none => run | some h => min h run
    tryEach (fun n => k (s.drop n) caps) (repCandidates lo m lazyQ)

/-- `re.match(pattern + eol)`: anchored at the start, remainder empty. -/
def reFullMatch (r : RE) (s : List Char) : Option Caps :=
  reMatch r s [] (fun rest caps => if rest.isEmpty then some caps else none)

/-- Sequence a nonempty list of regex pieces. -/
def reSeq (l : List RE) : RE :=
  match l with
  | [] => .rep (fun _ => false) 0 (some 0) false
  | r :: rs => rs.foldl RE.seq r

/-- First capture recorded for group `n`. -/
def capGet (caps : Caps) (n : Nat) : Option (List Char) :=
  (caps.find? (fun e => e.1 == n)).map (fun e => e.2)

/-- The amount sub-pattern `[\d,]+\.\d{2}` shared by all three formats. -/
def amountRE : RE :=
  reSeq [.rep isAmountC 1 none false, .cls (fun c => c == '.'),
    .rep isDigitC 2 (some 2) false]

/-- `(\d{1,2} \w{3})\s+(.*?)\s+([\d,]+\.\d{2})\s+([\d,]+\.\d{2})$`
(Commonwealth Bank pattern, `app4.py` line 47). -/
def cbRE : RE :=
  reSeq [
    .grp 1 (reSeq [.rep isDigitC 1 (some 2) false, .cls (fun c => c == ' '),
      .rep isWordC 3 (some 3) false]),
    .rep isSpaceC 1 none false,
    .grp 2 (.rep isAnyC 0 none true),
    .rep isSpaceC 1 none false,
    .grp 3 amountRE,
    .rep isSpaceC 1 none false,
    .grp 4 amountRE]

/-- `(\d{3})\s+(\w{3} \d{1,2})\s+(\w{3} \d{1,2})\s+(.*?)\s+([\d,]+\.\d{2})$`
(credit-card pattern, `app4.py` line 74). -/
def ccRE : RE :=
  reSeq [
    .grp 1 (.rep isDigitC 3 (some 3) false),
    .rep isSpaceC 1 none false,
    .grp 2 (reSeq [.rep isWordC 3 (some 3) false, .cls (fun c => c == ' '),
      .rep isDigitC 1 (some 2) false]),
    .rep isSpaceC 1 none false,
    .grp 3 (reSeq [.rep isWordC 3 (some 3) false, .cls (fun c => c == ' '),
      .rep isDigitC 1 (some 2) false]),
    .rep isSpaceC 1 none false,
    .grp 4 (.rep isAnyC 0 none true),
    .rep isSpaceC 1 none false,
    .grp 5 amountRE]

/-- `(\w{3}\d{1,2})\s+(.*?)\s+([\d,]+\.\d{2})\s+([\d,]+\.\d{2})$`
(debit-card pattern, `app4.py` line 100). -/
def dcRE : RE :=
  reSeq [
    .grp 1 (reSeq [.rep isWordC 3 (some 3) false, .rep isDigitC 1 (some 2) false]),
    .rep isSpaceC 1 none false,
    .grp 2 (.rep isAnyC 0 none true),
    .rep isSpaceC 1 none false,
    .grp 3 amountRE,
    .rep isSpaceC 1 none false,
    .grp 4 amountRE]

/-- A raw transaction: the `(date, description, amount)` text triple
produced by the parsers. -/
structure RawTxn where
  dateText : List Char
  description : List Char
  amountText : List Char
deriving DecidableEq, Repr

/-- One matching step of `parse_commonwealth_bank_transactions`
(`app4.py` lines 53-60): on a pattern match, the amount is the debit
field if it is non-empty, else the credit field prefixed with a minus. -/
def matchCommonwealthBank (line : List Char) : Option RawTxn :=
  match reFullMatch cbRE line with
  | none => none
  | some caps =>
    match capGet caps 1, capGet caps 2, capGet caps 3, capGet caps 4 with
    | some date, some desc, some debit, some credit =>
      some ⟨date, desc, if debit.isEmpty then '-' :: credit else debit⟩
    | _, _, _, _ => none

/-- One matching step of `parse_credit_card_transactions` (`app4.py`
lines 80-86): the reference number and posting date are discarded. -/
def matchCreditCard (line : List Char) : Option RawTxn :=
  match reFullMatch ccRE line with
  | none => none
  | some caps =>
    match capGet caps 2, capGet caps 4, capGet caps 5 with
    | some transDate, some details, some amount => some ⟨transDate, details, amount⟩
    | _, _, _ => none

/-- One matching step of `parse_debit_card_transactions` (`app4.py`
lines 106-112): the trailing running balance is discarded. -/
def matchDebitCard (line : List Char) : Option RawTxn :=
  match reFullMatch dcRE line with
  | none => none
  | some caps =>
    match capGet caps 1, capGet caps 2, capGet caps 3 with
    | some date, some ty, some amount => some ⟨date, ty, amount⟩
    | _, _, _ => none

/-- The shared accumulation loop of the three parsers (`app4.py` lines
49-67, 76-93, 102-119): `cur` is the transaction currently being
accumulated; a non-matching line extends its description with a single
space and the stripped line text; a matching line emits `cur` and starts
afresh; a trailing `cur` is emitted at the end. -/
def runParserAux (f : List Char → Option RawTxn) (cur : Option RawTxn) :
    List (List Char) → List RawTxn
  | [] =>
    match cur with
    | none => []
    | some t => [t]
  | line :: rest =>
    match f line with
    | some t =>
      match cur with
      | some prev => prev :: runParserAux f (some t) rest
      | none => runParserAux f (some t) rest
    | none =>
      match cur with
      | some prev =>
        runParserAux f
          (some ⟨prev.dateText, prev.description ++ ' ' :: stripStr line,
            prev.amountText⟩) rest
      | none => runParserAux f none rest

/-- Run a per-line matcher through the accumulation loop. -/
def runParser (f : List Char → Option RawTxn) (lines : List (List Char)) :
    List RawTxn :=
  runParserAux f none lines

/-- `parse_commonwealth_bank_transactions` (`app4.py` lines 45-69). -/
def parse_commonwealth_bank_transactions (lines : List (List Char)) : List RawTxn :=
  runParser matchCommonwealthBank lines

/-- `parse_credit_card_transactions` (`app4.py` lines 72-95). -/
def parse_credit_card_transactions (lines : List (List Char)) : List RawTxn :=
  runParser matchCreditCard lines

/-- `parse_debit_card_transactions` (`app4.py` lines 98-121). -/
def parse_debit_card_transactions (lines : List (List Char)) : List RawTxn :=
  runParser matchDebitCard lines

/-- The closed format enumeration returned by `detect_statement_format`. -/
inductive StatementFormat where
  | credit_card
  | debit_card
  | commonwealth_bank
deriving DecidableEq, Repr

/-- `detect_statement_format` (`app4.py` lines 31-42): priority-ordered
substring checks with a silent default to the credit-card format. -/
def detect_statement_format (lines : List (List Char)) : StatementFormat :=
  if lines.any (fun l => containsSub l (("Commonwealth Bank of Australia").data)) then
    .commonwealth_bank
  else if lines.any (fun l => containsSub l (("TRANS. POST").data)) then
    .credit_card
  else if lines.any (fun l => containsSub l (("OpeningBalance").data)) then
    .debit_card
  else
    .credit_card

/-- Numeric value of a digit string. -/
def digitsToNat (ds : List Char) : Nat :=
  ds.foldl (fun a c => a * 10 + (c.toNat - 48)) 0

/-- `strptime`'s day field `%d`, i.e. the alternation
`3[01]|[12]\d|0[1-9]|[1-9]` tried in that order; returns the parsed day
and the unconsumed remainder. -/
def parseDayDigits (s : List Char) : Option (Nat × List Char) :=
  match s with
  | [] => none
  | c :: rest =>
    match rest with
    | d :: rest2 =>
      if c == '3' && (d == '0' || d == '1') then some (30 + (d.toNat - 48), rest2)
      else if (c == '1' || c == '2') && d.isDigit then
        some ((c.toNat - 48) * 10 + (d.toNat - 48), rest2)
      else if c == '0' && (d.isDigit && !(d == '0')) then some (d.toNat - 48, rest2)
      else if c.isDigit && !(c == '0') then some (c.toNat - 48, rest)
      else none
    | [] =>
      if c.isDigit && !(c == '0') then some (c.toNat - 48, [])
      else none

/-- `strptime`'s month abbreviation field `%b`, case-insensitive. -/
def monthAbbrevNum (s : List Char) : Option Nat :=
  match s.map Char.toLower with
  | ['j', 'a', 'n'] => some 1
  | ['f', 'e', 'b'] => some 2
  | ['m', 'a', 'r'] => some 3
  | ['a', 'p', 'r'] => some 4
  | ['m', 'a', 'y'] => some 5
  | ['j', 'u', 'n'] => some 6
  | ['j', 'u', 'l'] => some 7
  | ['a', 'u', 'g'] => some 8
  | ['s', 'e', 'p'] => some 9
  | ['o', 'c', 't'] => some 10
  | ['n', 'o', 'v'] => some 11
  | ['d', 'e', 'c'] => some 12
  | _ => none

/-- Days per month in the placeholder year 1900 (not a leap year), the
year `strptime` validates against when the format has no year field. -/
def daysInMonth1900 (m : Nat) : Nat :=
  match m with
  | 1 => 31 | 2 => 28 | 3 => 31 | 4 => 30 | 5 => 31 | 6 => 30
  | 7 => 31 | 8 => 31 | 9 => 30 | 10 => 31 | 11 => 30 | 12 => 31
  | _ => 0

/-- `pd.to_datetime(_, format="%b %d", errors="coerce")` on one cell:
month abbreviation, at least one whitespace character, day, end of
string, validated against year 1900; `none` models `NaT`. -/
def parse_month_day (s : List Char) : Option (Nat × Nat) :=
  match s with
  | m1 :: m2 :: m3 :: c :: rest =>
    match monthAbbrevNum [m1, m2, m3] with
    | some m =>
      if isSpaceC c then
        match parseDayDigits (rest.dropWhile isSpaceC) with
        | some (d, []) => if d ≤ daysInMonth1900 m then some (m, d) else none
        | _ => none
      else none
    | none => none
  | _ => none

/-- `pd.to_datetime(_, format="%d %b", errors="coerce")` on one cell. -/
def parse_day_month (s : List Char) : Option (Nat × Nat) :=
  match parseDayDigits s with
  | some (d, c :: rest) =>
    if isSpaceC c then
      match rest.dropWhile isSpaceC with
      | [m1, m2, m3] =>
        match monthAbbrevNum [m1, m2, m3] with
        | some m => if d ≤ daysInMonth1900 m then some (m, d) else none
        | none => none
      | _ => none
    else none
  | _ => none

/-- The date pattern `normalize_transactions` selects at `app4.py` lines
135-138: day-then-month for Commonwealth Bank, month-then-day otherwise. -/
def parse_date (fmt : StatementFormat) (s : List Char) : Option (Nat × Nat) :=
  match fmt with
  | .commonwealth_bank => parse_day_month s
  | _ => parse_month_day s

/-- `df["Amount"].str.replace(",", "")`: remove every comma. -/
def stripCommas (s : List Char) : List Char := s.filter (fun c => !(c == ','))

/-- `pd.to_numeric(_, errors="coerce")` on one cell, modelled on the
finite-decimal fragment `[+-]? (digits [. digits] | . digits)` that the
parsers' amount texts stay inside; `none` models `NaN`. -/
def parseDecimal (s : List Char) : Option Rat :=
  let signed : Bool × List Char :=
    match s with
    | '-' :: r => (true, r)
    | '+' :: r => (false, r)
    | r => (false, r)
  let neg := signed.1
  let s1 := signed.2
  let ip := s1.takeWhile isDigitC
  let rest := s1.drop ip.length
  match rest with
  | [] =>
    if ip.isEmpty then none
    else some (mkRat (if neg then -Int.ofNat (digitsToNat ip) else Int.ofNat (digitsToNat ip)) 1)
  | '.' :: fp =>
    if fp.all isDigitC && !(ip.isEmpty && fp.isEmpty) then
      let n : Int := Int.ofNat (digitsToNat ip * 10 ^ fp.length + digitsToNat fp)
      some (mkRat (if neg then -n else n) (10 ^ fp.length))
    else none
  | _ => none

/-- A normalized transaction row: `date` is `none` when the date text
failed to parse (pandas `NaT`); `category` is the column added later by
`categorize_expenses`. -/
structure NormTxn where
  date : Option (Nat × Nat)
  description : List Char
  amount : Rat
  category : Option (List Char) := none
deriving DecidableEq, Repr

/-- A row after the amount column has been parsed but before the date
column has been converted. -/
structure AmtRow where
  dateText : List Char
  description : List Char
  amount : Rat
deriving DecidableEq, Repr

/-- `app4.py` lines 125-132: comma removal, `to_numeric` with coercion,
and `dropna(subset=["Amount"])` — rows whose amount fails to parse are
dropped. -/
def stage_amount (ts : List RawTxn) : List AmtRow :=
  ts.filterMap (fun t =>
    (parseDecimal (stripCommas t.amountText)).map
      (fun a => ⟨t.dateText, t.description, a⟩))

/-- `app4.py` lines 134-138: date conversion with `errors="coerce"`.
No row is dropped here; failures become a `none` date. -/
def stage_date (fmt : StatementFormat) (rows : List AmtRow) : List NormTxn :=
  rows.map (fun r => ⟨parse_date fmt r.dateText, r.description, r.amount, none⟩)

/-- The debit-card exclusion alternation of `app4.py` line 143. -/
def debitExclusions : List (List Char) :=
  [("OpeningBalance").data, ("ClosingBalance").data, ("Deposit").data,
    ("CreditCard/LOCpayment").data]

/-- The Commonwealth Bank exclusion alternation of `app4.py` line 151. -/
def cbExclusions : List (List Char) :=
  [("OPENING BALANCE").data, ("DEBIT INTEREST").data]

/-- `str.contains(p1|p2|..., case=False)`: some alternative occurs as a
case-insensitive substring. -/
def containsAnyCI (hay : List Char) (pats : List (List Char)) : Bool :=
  pats.any (fun p => containsSubCI hay p)

/-- Case-insensitive prefix test. -/
def isPrefixCI : List Char → List Char → Bool
  | [], _ => true
  | _ :: _, [] => false
  | a :: as, b :: bs => (Char.toLower a == Char.toLower b) && isPrefixCI as bs

/-- Deletion loop behind `removeSubCI`, structurally recursive on a fuel
argument so that it evaluates by kernel reduction; each step either
consumes one character or a whole occurrence of `needle`, so any fuel of
at least `hay.length` is enough. -/
def removeSubCIAux : Nat → List Char → List Char → List Char
  | 0, _, _ => []
  | _ + 1, _, [] => []
  | fuel + 1, needle, c :: rest =>
    if !needle.isEmpty && isPrefixCI needle (c :: rest) then
      removeSubCIAux fuel needle (rest.drop (needle.length - 1))
    else
      c :: removeSubCIAux fuel needle rest

/-- `str.replace(needle, "", case=False)`: delete every (left-to-right,
non-overlapping) case-insensitive occurrence of `needle`. -/
def removeSubCI (needle : List Char) (hay : List Char) : List Char :=
  removeSubCIAux hay.length needle hay

/-- The literal stripped out of surviving debit-card descriptions. -/
def posPurchase : List Char := ("Pointofsalepurchase").data

/-- `app4.py` lines 140-151: the format-specific exclusion filters on the
raw description, applied before truncation. -/
def stage_filter (fmt : StatementFormat) (rows : List NormTxn) : List NormTxn :=
  match fmt with
  | .debit_card =>
    (rows.filter (fun r => !containsAnyCI r.description debitExclusions)).map
      (fun r => { r with description := stripStr (removeSubCI posPurchase r.description) })
  | .credit_card =>
    rows.filter (fun r => !containsSubCI r.description (("PAYMENT FROM").data))
  | .commonwealth_bank =>
    rows.filter (fun r => !containsAnyCI r.description cbExclusions)

/-- Tokenizer loop behind `splitWs`: `acc` holds the characters of the
token currently being read, most recent first. -/
def splitWsAux : List Char → List Char → List (List Char)
  | [], acc => if acc.isEmpty then [] else [acc.reverse]
  | c :: rest, acc =>
    if isSpaceC c then
      if acc.isEmpty then splitWsAux rest []
      else acc.reverse :: splitWsAux rest []
    else splitWsAux rest (c :: acc)

/-- Python's `str.split()`: split on whitespace runs, no empty tokens. -/
def splitWs (s : List Char) : List (List Char) :=
  splitWsAux s []

/-- `" ".join(x.split()[:3])` (`app4.py` line 154). -/
def truncate3 (s : List Char) : List Char :=
  List.intercalate [' '] ((splitWs s).take 3)

/-- `app4.py` line 154 over the whole column. -/
def stage_trunc (rows : List NormTxn) : List NormTxn :=
  rows.map (fun r => { r with description := truncate3 r.description })

/-- `normalize_transactions` (`app4.py` lines 124-156), as the pandas
stage pipeline: amount parsing and dropping, date coercion, exclusion
filtering, description truncation. -/
def normalize_transactions (transactions : List RawTxn) (statement_format : StatementFormat) :
    List NormTxn :=
  stage_trunc (stage_filter statement_format
    (stage_date statement_format (stage_amount transactions)))

/-- The global `categories` table of `app4.py` lines 8-18, in its
insertion order. -/
def categories : List (List Char × List (List Char)) :=
  [(("Groceries").data,
      [("woolworths").data, ("iga").data, ("supermarket").data, ("freshco").data,
        ("dhesi meat shop").data, ("7eleven").data, ("dollarama").data]),
    (("Dining/Takeout").data,
      [("restaurant").data, ("cafe").data, ("tim hortons").data, ("popeyes").data,
        ("banter ice cream").data]),
    (("Utilities").data,
      [("virgin plus").data, ("adobe inc").data, ("internet").data,
        ("electricity").data, ("water").data]),
    (("Subscriptions").data,
      [("canva").data, ("nayax").data, ("netflix").data, ("spotify").data]),
    (("Transportation").data,
      [("uber").data, ("lyft").data, ("gas station").data, ("public transit").data]),
    (("Entertainment").data,
      [("movie").data, ("concert").data, ("theme park").data, ("music").data]),
    (("Shopping").data,
      [("petstock").data, ("clothing").data, ("electronics").data, ("amazon").data]),
    (("Health").data, [("pharmacy").data, ("hospital").data, ("gym").data]),
    (("Other").data, [])]

/-- The loop of `get_category` (`app4.py` lines 160-165) over a table
suffix: the first category one of whose keywords occurs in the lowered
description wins; falling off the end yields the `"Other"` default. -/
def getCategoryFrom (description : List Char) :
    List (List Char × List (List Char)) → List Char
  | [] => ("Other").data
  | (cat, kws) :: rest =>
    if kws.any (fun kw => containsSub (description.map Char.toLower) kw) then cat
    else getCategoryFrom description rest

/-- `get_category` (`app4.py` lines 160-165). -/
def get_category (description : List Char) : List Char :=
  getCategoryFrom description categories

/-- `categorize_expenses` (`app4.py` lines 159-168): set the `Category`
column from the description; nothing else changes. -/
def categorize_expenses (df : List NormTxn) : List NormTxn :=
  df.map (fun r => { r with category := some (get_category r.description) })

/-- Whether the exclusion filter of `statement_format` drops a row with
this raw description. -/
def descDropped (fmt : StatementFormat) (desc : List Char) : Bool :=
  match fmt with
  | .debit_card => containsAnyCI desc debitExclusions
  | .credit_card => containsSubCI desc (("PAYMENT FROM").data)
  | .commonwealth_bank => containsAnyCI desc cbExclusions

/-- The description transformation a surviving row undergoes. -/
def descTransform (fmt : StatementFormat) (desc : List Char) : List Char :=
  match fmt with
  | .debit_card => truncate3 (stripStr (removeSubCI posPurchase desc))
  | _ => truncate3 desc

/-- The effect of `normalize_transactions` on a single raw row. -/
def normalizeRow (fmt : StatementFormat) (t : RawTxn) : Option NormTxn :=
  match parseDecimal (stripCommas t.amountText) with
  | none => none
  | some a =>
    if descDropped fmt t.description then none
    else some ⟨parse_date fmt t.dateText, descTransform fmt t.description, a, none⟩

/-- Appending a block of continuation lines to an accumulating
transaction, one `" " + line.strip()` at a time. -/
def applyConts (t : RawTxn) (cs : List (List Char)) : RawTxn :=
  cs.foldl (fun u c => ⟨u.dateText, u.description ++ ' ' :: stripStr c, u.amountText⟩) t

/-- The fields of a raw transaction that continuation lines never touch. -/
def projDA (t : RawTxn) : List Char × List Char := (t.dateText, t.amountText)

/-- Whether some keyword of a category-table entry occurs in the lowered
description — the inner loop of `get_category`. -/
def kwHit (description : List Char) (entry : List Char × List (List Char)) : Bool :=
  entry.2.any (fun kw => containsSub (description.map Char.toLower) kw)

theorem normalize_eq_filterMap (fmt : StatementFormat) :
    ∀ ts : List RawTxn, normalize_transactions ts fmt = ts.filterMap (normalizeRow fmt)
  | [] => by cases fmt <;> rfl
  | t :: ts => by
    have ih := normalize_eq_filterMap fmt ts
    simp only [normalize_transactions, stage_amount, List.filterMap_cons] at ih ⊢
    cases h : parseDecimal (stripCommas t.amountText) with
    | none => simpa [normalizeRow, h] using ih
    | some a =>
      cases hd : descDropped fmt t.description with
      | false =>
        cases fmt <;>
          simp_all [normalizeRow, descDropped, descTransform, stage_date, stage_filter,
            stage_trunc, List.filter_cons]
      | true =>
        cases fmt <;>
          simp_all [normalizeRow, descDropped, descTransform, stage_date, stage_filter,
            stage_trunc, List.filter_cons]

theorem runParserAux_skip (f : List Char → Option RawTxn) :
    ∀ pre rest, (∀ c ∈ pre, f c = none) →
      runParserAux f none (pre ++ rest) = runParserAux f none rest
  | [], _, _ => rfl
  | c :: pre, rest, h => by
    have hc : f c = none := h c (by simp)
    simp only [List.cons_append, runParserAux, hc]
    exact runParserAux_skip f pre rest (fun x hx => h x (by simp [hx]))

theorem runParserAux_conts (f : List Char → Option RawTxn) :
    ∀ cs cur rest, (∀ c ∈ cs, f c = none) →
      runParserAux f (some cur) (cs ++ rest) =
        runParserAux f (some (applyConts cur cs)) rest
  | [], cur, rest, _ => by simp [applyConts]
  | c :: cs, cur, rest, h => by
    have hc : f c = none := h c (by simp)
    simp only [List.cons_append, runParserAux, hc, List.append_eq]
    rw [runParserAux_conts f cs _ rest (fun x hx => h x (by simp [hx]))]
    simp [applyConts]

theorem runParserAux_projDA (f : List Char → Option RawTxn) :
    ∀ lines cur, (runParserAux f cur lines).map projDA =
      (cur.toList ++ lines.filterMap f).map projDA
  | [], cur => by cases cur <;> simp [runParserAux]
  | line :: rest, cur => by
    cases hl : f line with
    | some t =>
      cases cur with
      | some prev =>
        simp [runParserAux, hl, runParserAux_projDA f rest (some t), List.filterMap_cons]
      | none =>
        simp [runParserAux, hl, runParserAux_projDA f rest (some t), List.filterMap_cons]
    | none =>
      cases cur with
      | some prev =>
        have ih := runParserAux_projDA f rest
          (some ⟨prev.dateText, prev.description ++ ' ' :: stripStr line, prev.amountText⟩)
        simp only [runParserAux, hl] at ih ⊢
        simp [ih, List.filterMap_cons, hl, projDA]
      | none =>
        simp [runParserAux, hl, runParserAux_projDA f rest none, List.filterMap_cons]

theorem runParserAux_allMatch (f : List Char → Option RawTxn) :
    ∀ lines, (∀ l ∈ lines, (f l).isSome = true) →
      runParserAux f none lines = lines.filterMap f ∧
        ∀ t, runParserAux f (some t) lines = t :: lines.filterMap f
  | [], _ => by simp [runParserAux]
  | line :: rest, h => by
    obtain ⟨t0, ht⟩ : ∃ t0, f line = some t0 :=
      Option.isSome_iff_exists.mp (h line (by simp))
    have ih := runParserAux_allMatch f rest (fun x hx => h x (by simp [hx]))
    refine ⟨?_, fun t => ?_⟩
    · simp [runParserAux, ht, List.filterMap_cons, ih.2 t0]
    · simp [runParserAux, ht, List.filterMap_cons, ih.2 t0]

theorem getCategoryFrom_eq_find (desc : List Char) :
    ∀ table, getCategoryFrom desc table =
      ((table.find? (kwHit desc)).map Prod.fst).getD (("Other").data)
  | [] => rfl
  | (cat, kws) :: rest => by
    cases h : kws.any (fun kw => containsSub (desc.map Char.toLower) kw) with
    | true =>
      rw [List.find?_cons_of_pos _ (by simpa [kwHit] using h)]
      simp [getCategoryFrom, h]
    | false =>
      rw [List.find?_cons_of_neg _ (by simpa [kwHit] using h)]
      simp [getCategoryFrom, h, getCategoryFrom_eq_find desc rest]

theorem getCategoryFrom_first (desc : List Char) :
    ∀ table i (h : i < List.length table),
      kwHit desc (table.get ⟨i, h⟩) = true →
      ∃ j, ∃ hj : j < List.length table, j ≤ i ∧
        kwHit desc (table.get ⟨j, hj⟩) = true ∧
        getCategoryFrom desc table = (table.get ⟨j, hj⟩).1
  | [], i, h, _ => absurd h (by simp)
  | (cat, kws) :: rest, i, h, hi => by
    cases hh : kws.any (fun kw => containsSub (desc.map Char.toLower) kw) with
    | true =>
      exact ⟨0, Nat.succ_pos _, Nat.zero_le i, hh, by simp [getCategoryFrom, hh]⟩
    | false =>
      cases i with
      | zero =>
        have ht : (kws.any fun kw => containsSub (desc.map Char.toLower) kw) = true := hi
        rw [ht] at hh
        exact Bool.noConfusion hh
      | succ i2 =>
        have h2 : i2 < List.length rest := Nat.lt_of_succ_lt_succ h
        have hi2 : kwHit desc (rest.get ⟨i2, h2⟩) = true := hi
        obtain ⟨j, hj, hji, hkw, heq⟩ := getCategoryFrom_first desc rest i2 h2 hi2
        refine ⟨j + 1, Nat.succ_lt_succ hj, Nat.succ_le_succ hji, hkw, ?_⟩
        show getCategoryFrom desc ((cat, kws) :: rest) = (rest.get ⟨j, hj⟩).1
        simp [getCategoryFrom, hh, heq]

theorem getCategoryFrom_noHit (desc : List Char) :
    ∀ table, (∀ e ∈ table, kwHit desc e = false) →
      getCategoryFrom desc table = ("Other").data
  | [], _ => rfl
  | (cat, kws) :: rest, h => by
    have hh : kws.any (fun kw => containsSub (desc.map Char.toLower) kw) = false := by
      simpa [kwHit] using h (cat, kws) (by simp)
    simp [getCategoryFrom, hh,
      getCategoryFrom_noHit desc rest (fun e he => h e (by simp [he]))]

/-- C2: for every line matched by the Commonwealth Bank pattern, the raw
amount is the debit capture when the debit capture is non-empty (and the
credit capture empty), and the minus-prefixed credit capture when the
debit capture is empty (and the credit capture non-empty); in general
`amount = debit if present else negated credit`. -/
theorem commonwealth_amount_sign_convention :
    ∀ line t caps debit credit,
      matchCommonwealthBank line = some t →
      reFullMatch cbRE line = some caps →
      capGet caps 3 = some debit →
      capGet caps 4 = some credit →
      t.amountText = (if debit.isEmpty then '-' :: credit else debit) ∧
      (debit.isEmpty = false ∧ credit.isEmpty = true → t.amountText = debit) ∧
      (debit.isEmpty = true ∧ credit.isEmpty = false → t.amountText = '-' :: credit) := by
  intro line t caps debit credit hm hf h3 h4
  simp only [matchCommonwealthBank, hf] at hm
  cases h1 : capGet caps 1 with
  | none => rw [h1] at hm; exact absurd hm (by simp)
  | some date =>
    cases h2 : capGet caps 2 with
    | none => rw [h1, h2] at hm; exact absurd hm (by simp)
    | some desc =>
      rw [h1, h2, h3, h4] at hm
      simp only [Option.some.injEq] at hm
      subst hm
      refine ⟨rfl, fun hdc => ?_, fun hdc => ?_⟩
      · simp [hdc.1]
      · simp [hdc.1]

/-- Witness for C2: a matched Commonwealth Bank line, with its concrete
capture list; the debit capture is non-empty, so the amount is the debit
text. -/
theorem commonwealth_amount_sign_convention_witness :
    (⟨("5 Jan").data, ("FOO").data, ("10.00").data⟩ : RawTxn).amountText =
      (if (("10.00").data).isEmpty then '-' :: ("20.00").data else ("10.00").data) ∧
    ((("10.00").data).isEmpty = false ∧ (("20.00").data).isEmpty = true →
      (⟨("5 Jan").data, ("FOO").data, ("10.00").data⟩ : RawTxn).amountText = ("10.00").data) ∧
    ((("10.00").data).isEmpty = true ∧ (("20.00").data).isEmpty = false →
      (⟨("5 Jan").data, ("FOO").data, ("10.00").data⟩ : RawTxn).amountText =
        '-' :: ("20.00").data) :=
  commonwealth_amount_sign_convention (("5 Jan FOO 10.00 20.00").data)
    ⟨("5 Jan").data, ("FOO").data, ("10.00").data⟩
    [(4, ("20.00").data), (3, ("10.00").data), (2, ("FOO").data), (1, ("5 Jan").data)]
    (("10.00").data) (("20.00").data)
    (by decide) (by decide) (by decide) (by decide)

/-- C3: for every per-line matcher (hence for every parser variant, each
being `runParser` of its matcher), a matching line followed by
non-matching lines followed by a matching line yields a first transaction
whose description is the first capture extended by the stripped
continuation texts, single-space separated, and a second transaction
starting at the second matching line (emitted at end of input); a block
of non-matching lines seen with no transaction accumulating is
discarded. -/
theorem parser_continuation_property :
    (∀ (f : List Char → Option RawTxn) m1 cs m2 t1 t2,
        f m1 = some t1 → (∀ c ∈ cs, f c = none) → f m2 = some t2 →
        runParser f (m1 :: (cs ++ [m2])) = [applyConts t1 cs, t2]) ∧
    (∀ (f : List Char → Option RawTxn) pre rest, (∀ c ∈ pre, f c = none) →
        runParser f (pre ++ rest) = runParser f rest) ∧
    parse_commonwealth_bank_transactions = runParser matchCommonwealthBank ∧
    parse_credit_card_transactions = runParser matchCreditCard ∧
    parse_debit_card_transactions = runParser matchDebitCard := by
  refine ⟨?_, ?_, rfl, rfl, rfl⟩
  · intro f m1 cs m2 t1 t2 h1 hc h2
    show runParserAux f none (m1 :: (cs ++ [m2])) = _
    simp only [runParserAux, h1]
    rw [runParserAux_conts f cs t1 [m2] hc]
    simp [runParserAux, h2]
  · intro f pre rest h
    exact runParserAux_skip f pre rest h

/-- Witness for C3: a credit-card line, one continuation line, and a
second credit-card line. -/
theorem parser_continuation_property_witness :
    runParser matchCreditCard
      [("001 JAN 05 JAN 07 NETFLIX.COM 15.99").data, ("  SYDNEY AU  ").data,
        ("002 FEB 01 FEB 02 UBER TRIP 22.00").data] =
      [⟨("JAN 05").data, ("NETFLIX.COM SYDNEY AU").data, ("15.99").data⟩,
        ⟨("FEB 01").data, ("UBER TRIP").data, ("22.00").data⟩] :=
  parser_continuation_property.1 matchCreditCard _ [("  SYDNEY AU  ").data] _
    ⟨("JAN 05").data, ("NETFLIX.COM").data, ("15.99").data⟩
    ⟨("FEB 01").data, ("UBER TRIP").data, ("22.00").data⟩
    (by decide) (by decide) (by decide)

/-- C4: format detection is a priority-ordered substring scan — the
Commonwealth Bank marker wins over all others, then the credit-card
marker, then the debit-card marker, and an unrecognized document
silently defaults to the credit-card format (the function is total, so
no error is ever raised). -/
theorem detect_statement_format_priority :
    ∀ lines : List (List Char),
      (lines.any (fun l => containsSub l (("Commonwealth Bank of Australia").data)) = true →
        detect_statement_format lines = .commonwealth_bank) ∧
      (lines.any (fun l => containsSub l (("Commonwealth Bank of Australia").data)) = false →
        lines.any (fun l => containsSub l (("TRANS. POST").data)) = true →
        detect_statement_format lines = .credit_card) ∧
      (lines.any (fun l => containsSub l (("Commonwealth Bank of Australia").data)) = false →
        lines.any (fun l => containsSub l (("TRANS. POST").data)) = false →
        lines.any (fun l => containsSub l (("OpeningBalance").data)) = true →
        detect_statement_format lines = .debit_card) ∧
      (lines.any (fun l => containsSub l (("Commonwealth Bank of Australia").data)) = false →
        lines.any (fun l => containsSub l (("TRANS. POST").data)) = false →
        lines.any (fun l => containsSub l (("OpeningBalance").data)) = false →
        detect_statement_format lines = .credit_card) := by
  intro lines
  refine ⟨fun h1 => ?_, fun h1 h2 => ?_, fun h1 h2 h3 => ?_, fun h1 h2 h3 => ?_⟩ <;>
    simp [detect_statement_format, *]

/-- Witness for C4: all three markers present on one line; the
Commonwealth Bank check wins. -/
theorem detect_statement_format_priority_witness :
    detect_statement_format
      [("Commonwealth Bank of Australia TRANS. POST OpeningBalance").data] =
      StatementFormat.commonwealth_bank :=
  (detect_statement_format_priority _).1 (by decide)

/-- C5: the credit-card pipeline on the single line
`001 JAN 05 JAN 07 NETFLIX.COM 15.99` yields one transaction dated
Jan 05 (the transaction date, not the posting date Jan 07), described
`NETFLIX.COM`, with amount 15.99, categorized `Subscriptions`. -/
theorem credit_card_netflix_scenario :
    categorize_expenses (normalize_transactions
        (parse_credit_card_transactions [("001 JAN 05 JAN 07 NETFLIX.COM 15.99").data])
        StatementFormat.credit_card) =
      [⟨some (1, 5), ("NETFLIX.COM").data, mkRat 1599 100,
        some (("Subscriptions").data)⟩] := by
  decide

/-- Counterexample to C1: a raw row whose amount text parses but whose
date text does not is retained in the normalized output with a `none`
date — it is not excluded, because `normalize_transactions` only drops
NaN amounts (`dropna(subset=["Amount"])`) while dates are converted with
`errors="coerce"` and never dropped. -/
theorem date_failure_row_retained_cex :
    normalize_transactions [⟨("XX").data, ("desc").data, ("10.00").data⟩]
        StatementFormat.credit_card =
      [⟨none, ("desc").data, mkRat 10 1, none⟩] ∧
    parse_date StatementFormat.credit_card (("XX").data) = none :=
  ⟨by decide, by decide⟩

/-- C1 (amended): every row in the normalized output carries an amount
obtained from a successful finite-decimal parse of its raw amount text —
rows whose amount fails to parse are excluded entirely — but its date is
whatever the date parse produced, possibly `none`: a row whose date text
fails to parse is retained with a null date, not excluded. -/
theorem normalize_amount_parsed_date_retained :
    (∀ ts fmt r, r ∈ normalize_transactions ts fmt →
      ∃ t, t ∈ ts ∧ parseDecimal (stripCommas t.amountText) = some r.amount ∧
        r.date = parse_date fmt t.dateText) ∧
    (∀ ts fmt t a, t ∈ ts → parseDecimal (stripCommas t.amountText) = some a →
      descDropped fmt t.description = false →
      (⟨parse_date fmt t.dateText, descTransform fmt t.description, a, none⟩ : NormTxn) ∈
        normalize_transactions ts fmt) := by
  constructor
  · intro ts fmt r hr
    rw [normalize_eq_filterMap] at hr
    obtain ⟨t, ht, hrow⟩ := List.mem_filterMap.mp hr
    simp only [normalizeRow] at hrow
    cases hp : parseDecimal (stripCommas t.amountText) with
    | none => rw [hp] at hrow; exact absurd hrow (by simp)
    | some a =>
      rw [hp] at hrow
      cases hd : descDropped fmt t.description with
      | true => rw [hd] at hrow; simp at hrow
      | false =>
        rw [hd] at hrow
        simp only [Bool.false_eq_true, if_false, Option.some.injEq] at hrow
        subst hrow
        exact ⟨t, ht, hp, rfl⟩
  · intro ts fmt t a ht hp hd
    rw [normalize_eq_filterMap]
    refine List.mem_filterMap.mpr ⟨t, ht, ?_⟩
    simp [normalizeRow, hp, hd]

/-- Witness for the amended C1: the retained-with-null-date row of the
counterexample input, produced through the theorem. -/
theorem normalize_amount_parsed_date_retained_witness :
    (⟨parse_date StatementFormat.credit_card (("XX").data),
      descTransform StatementFormat.credit_card (("desc").data),
      mkRat 10 1, none⟩ : NormTxn) ∈
      normalize_transactions [⟨("XX").data, ("desc").data, ("10.00").data⟩]
        StatementFormat.credit_card :=
  normalize_amount_parsed_date_retained.2
    [⟨("XX").data, ("desc").data, ("10.00").data⟩] StatementFormat.credit_card
    ⟨("XX").data, ("desc").data, ("10.00").data⟩ (mkRat 10 1)
    (by decide) (by decide) (by decide)

/-- C6: `get_category` returns the first category of the table (in its
insertion order) one of whose keywords occurs case-insensitively in the
description — an earlier entry wins regardless of keyword length or
position — and returns the distinguished fallback `"Other"` (the last
entry, whose keyword set is empty) when no keyword matches. -/
theorem categorize_keyword_priority :
    (∀ desc, get_category desc =
      ((categories.find? (kwHit desc)).map Prod.fst).getD (("Other").data)) ∧
    (∀ desc i (h : i < List.length categories),
      kwHit desc (categories.get ⟨i, h⟩) = true →
      ∃ j, ∃ hj : j < List.length categories, j ≤ i ∧
        kwHit desc (categories.get ⟨j, hj⟩) = true ∧
        get_category desc = (categories.get ⟨j, hj⟩).1) ∧
    (∀ desc, (∀ e ∈ categories, kwHit desc e = false) →
      get_category desc = ("Other").data) ∧
    categories.getLast? = some ((("Other").data), []) :=
  ⟨fun desc => getCategoryFrom_eq_find desc categories,
    fun desc i h hi => getCategoryFrom_first desc categories i h hi,
    fun desc h => getCategoryFrom_noHit desc categories h, by decide⟩

/-- Witness for C6: `NETFLIX CAFE` hits Subscriptions (index 3) by
`netflix` but Dining/Takeout (index 1) is declared earlier and wins. -/
theorem categorize_keyword_priority_witness :
    ∃ j, ∃ hj : j < List.length categories, j ≤ 3 ∧
      kwHit (("NETFLIX CAFE").data) (categories.get ⟨j, hj⟩) = true ∧
      get_category (("NETFLIX CAFE").data) = (categories.get ⟨j, hj⟩).1 :=
  categorize_keyword_priority.2.1 (("NETFLIX CAFE").data) 3 (by decide) (by decide)

/-- C7: over debit-card rows whose amount text parses, normalization
drops exactly the rows whose raw description contains one of the four
exclusion markers case-insensitively — and no other rows — and every
surviving description has `Pointofsalepurchase` stripped out, is trimmed
of whitespace, and is truncated to its first three tokens. -/
theorem debit_card_exclusion_filter :
    ∀ rows, (∀ t ∈ rows, (parseDecimal (stripCommas t.amountText)).isSome = true) →
      normalize_transactions rows StatementFormat.debit_card =
        (rows.filter (fun t => !containsAnyCI t.description debitExclusions)).map
          (fun t => ⟨parse_date StatementFormat.debit_card t.dateText,
            truncate3 (stripStr (removeSubCI posPurchase t.description)),
            (parseDecimal (stripCommas t.amountText)).getD 0, none⟩)
  | [], _ => by rw [normalize_eq_filterMap]; rfl
  | t :: ts, h => by
    have hts := debit_card_exclusion_filter ts (fun x hx => h x (by simp [hx]))
    rw [normalize_eq_filterMap] at hts ⊢
    obtain ⟨a, ha⟩ : ∃ a, parseDecimal (stripCommas t.amountText) = some a :=
      Option.isSome_iff_exists.mp (h t (by simp))
    cases hd : containsAnyCI t.description debitExclusions with
    | true =>
      simp [List.filterMap_cons, List.filter_cons, normalizeRow, ha, descDropped, hd, hts]
    | false =>
      simp [List.filterMap_cons, List.filter_cons, normalizeRow, ha, descDropped,
        descTransform, hd, hts]

/-- Witness for C7: the spec's own example — an `OpeningBalance` row and
a `Coffee Shop Purchase` row; exactly the second survives. -/
theorem debit_card_exclusion_filter_witness :
    normalize_transactions
      [⟨("Jan5").data, ("OpeningBalance 100.00").data, ("100.00").data⟩,
        ⟨("Jan6").data, ("Coffee Shop Purchase").data, ("12.00").data⟩]
      StatementFormat.debit_card =
      [⟨none, ("Coffee Shop Purchase").data, mkRat 12 1, none⟩] :=
  (debit_card_exclusion_filter _ (by decide)).trans (by decide)

/-- C8: when every line matches, each parser emits one raw transaction
per line in input order; in general the emitted transactions' date and
amount fields equal, in order, those of the matching lines (emission
follows starting-line order, no reordering); and normalization is a
per-row `filterMap`, so it preserves the relative order of its input and
dropping is its only reordering effect. -/
theorem pipeline_order_preservation :
    (∀ (f : List Char → Option RawTxn) lines, (∀ l ∈ lines, (f l).isSome = true) →
      runParser f lines = lines.filterMap f) ∧
    (∀ (f : List Char → Option RawTxn) lines,
      (runParser f lines).map projDA = (lines.filterMap f).map projDA) ∧
    (∀ ts fmt, normalize_transactions ts fmt = ts.filterMap (normalizeRow fmt)) := by
  refine ⟨fun f lines h => (runParserAux_allMatch f lines h).1,
    fun f lines => ?_, fun ts fmt => normalize_eq_filterMap fmt ts⟩
  simpa [runParser] using runParserAux_projDA f lines none

/-- Witness for C8: two debit-card lines, both matching, parse to one
transaction each in order. -/
theorem pipeline_order_preservation_witness :
    runParser matchDebitCard
      [("Jan5 Coffee Shop 12.00 88.00").data, ("Feb6 Grocery Store 34.00 54.00").data] =
      [("Jan5 Coffee Shop 12.00 88.00").data,
        ("Feb6 Grocery Store 34.00 54.00").data].filterMap matchDebitCard :=
  pipeline_order_preservation.1 matchDebitCard _ (by decide)

/-- C9: categorization is idempotent — the category table is a fixed
read-only value and the assignment depends only on the description,
which categorization does not change. -/
theorem categorize_idempotent :
    ∀ df, categorize_expenses (categorize_expenses df) = categorize_expenses df := by
  intro df
  simp only [categorize_expenses, List.map_map]
  exact List.map_congr_left (fun r _ => rfl)

/-- C10: `categorize_expenses` changes nothing but the category column —
the date, description, and amount of every row, and the number and
relative order of rows, are unchanged. -/
theorem categorize_frame :
    ∀ df, (categorize_expenses df).map (fun r => (r.date, r.description, r.amount)) =
        df.map (fun r => (r.date, r.description, r.amount)) ∧
      (categorize_expenses df).length = df.length := by
  intro df
  constructor
  · simp only [categorize_expenses, List.map_map]
    exact List.map_congr_left (fun r _ => rfl)
  · simp [categorize_expenses]

end StatementAnalyser
